import Mathlib

set_option maxHeartbeats 1000000
set_option maxRecDepth 8000

/- Verification development for the Convex Raycast extension
   (src/extensions/convex/src/run-function.tsx and view-logs.tsx).

   The embedding models:
   - the OAuth device-authorization polling loop (pollForDeviceToken),
     with network replies supplied as an explicit function from request
     index to reply, time measured in milliseconds starting at 0 when the
     deadline is computed, network latency idealized to zero, and the
     sleep between retries advancing time by the poll interval;
   - the durable LocalStorage key-value store as a record with one
     Option String field per storage key of STORAGE_KEYS;
   - JS truthiness where the source branches on it (0, empty string and
     undefined are falsy);
   - Number.prototype.toString and parseInt(-, 10) on the decimal strings
     this code stores, via an explicit decimal codec (natToString /
     parseNat); parseInt of a non-numeric string yields NaN in JS, which
     every consumer here treats like an absent value, so it is modelled
     as none. -/

/- Decimal codec: model of JS Number.prototype.toString for the
   non-negative integers this code stores. -/

def digitChar (d : Nat) : Char := Char.ofNat (48 + d)

def isDigitChar (c : Char) : Bool := 48 ≤ c.toNat && c.toNat ≤ 57

def natDigitsAux : Nat → Nat → List Char
  | 0, _ => []
  | fuel + 1, n =>
    if n < 10 then [digitChar n]
    else natDigitsAux fuel (n / 10) ++ [digitChar (n % 10)]

def natToString (n : Nat) : String := ⟨natDigitsAux (n + 1) n⟩

/- Model of JS parseInt(s, 10) on the strings this code ever stores
   (plain decimal digit strings written by toString). A string that is
   not a plain decimal numeral yields none. -/
def parseNat (s : String) : Option Nat :=
  if s.toList ≠ [] ∧ s.toList.all isDigitChar = true then
    some (s.toList.foldl (fun a c => a * 10 + (c.toNat - 48)) 0)
  else none

/- Data model of run-function.tsx. -/

/- interface ConvexSession (run-function.tsx lines 630-635).
   expiresAt is a millisecond timestamp; absent fields are none. -/
structure ConvexSession where
  accessToken : String
  tokenType : String
  expiresAt : Option Nat
  refreshToken : Option String
deriving DecidableEq

/- interface DeviceAuthResponse (lines 614-621). interval = 0 models the
   JS-falsy cases (0 or absent), matching the source's interval-or-5. -/
structure DeviceAuthResponse where
  device_code : String
  user_code : String
  verification_uri : String
  verification_uri_complete : String
  expires_in : Nat
  interval : Nat
deriving DecidableEq

/- interface TokenResponse (lines 623-628). -/
structure TokenResponse where
  access_token : String
  token_type : String
  expires_in : Option Nat
  refresh_token : Option String
deriving DecidableEq

/- interface SelectedContext (lines 893-897); null maps to none.
   Team and project ids are the platform's non-negative integer ids. -/
structure SelectedContext where
  teamId : Option Nat
  projectId : Option Nat
  deploymentName : Option String
deriving DecidableEq

/- The durable LocalStorage store, one field per key of STORAGE_KEYS
   (lines 605-612): convex-access-token, convex-token-expires-at,
   convex-refresh-token, convex-selected-team-id,
   convex-selected-project-id, convex-selected-deployment-name.
   none means the key is absent. -/
structure Storage where
  accessToken : Option String
  tokenExpiresAt : Option String
  refreshToken : Option String
  selectedTeamId : Option String
  selectedProjectId : Option String
  selectedDeploymentName : Option String
deriving DecidableEq

/- isSessionExpired (lines 833-839): the guard is the JS-falsy check
   !session.expiresAt, so both an absent and a zero expiresAt mean never
   expired; otherwise expired iff Date.now() > expiresAt - 5 * 60 * 1000.
   Arithmetic over Int, as JS number subtraction does not truncate at
   zero. -/
def isSessionExpired (now : Int) (session : ConvexSession) : Bool :=
  match session.expiresAt with
  | none => false
  | some e => if e = 0 then false else decide (now > (e : Int) - 5 * 60 * 1000)

/- saveSession (lines 774-788): always writes the access token; writes
   the expiry and refresh-token keys only when the corresponding session
   field is JS-truthy (present, and nonzero resp. non-empty). -/
def saveSession (session : ConvexSession) (st : Storage) : Storage :=
  let st1 := { st with accessToken := some session.accessToken }
  let st2 :=
    match session.expiresAt with
    | some e => if e ≠ 0 then { st1 with tokenExpiresAt := some (natToString e) } else st1
    | none => st1
  match session.refreshToken with
  | some r => if r ≠ "" then { st2 with refreshToken := some r } else st2
  | none => st2

/- loadSession (lines 793-814): returns null when the access-token key
   is absent or empty (JS-falsy); tokenType is always "Bearer"; the
   expiry string, when present and non-empty, is parsed with
   parseInt(-, 10); the refresh-token value is passed through as read. -/
def loadSession (st : Storage) : Option ConvexSession :=
  match st.accessToken with
  | none => none
  | some a =>
    if a = "" then none
    else
      some
        { accessToken := a
          tokenType := "Bearer"
          expiresAt :=
            match st.tokenExpiresAt with
            | none => none
            | some s => if s = "" then none else parseNat s
          refreshToken := st.refreshToken }

/- clearSession (lines 819-828): removes all six STORAGE_KEYS entries. -/
def clearSession (_st : Storage) : Storage :=
  ⟨none, none, none, none, none, none⟩

/- saveSelectedContext (lines 899-920): each field is written only when
   JS-truthy (non-null, and nonzero id resp. non-empty name); ids are
   stored via toString. -/
def saveSelectedContext (context : SelectedContext) (st : Storage) : Storage :=
  let st1 :=
    match context.teamId with
    | some t => if t ≠ 0 then { st with selectedTeamId := some (natToString t) } else st
    | none => st
  let st2 :=
    match context.projectId with
    | some p => if p ≠ 0 then { st1 with selectedProjectId := some (natToString p) } else st1
    | none => st1
  match context.deploymentName with
  | some d => if d ≠ "" then { st2 with selectedDeploymentName := some d } else st2
  | none => st2

/- loadSelectedContext (lines 922-938): ids parse with parseInt when the
   stored string is truthy, otherwise null; the deployment name uses
   nullish coalescing, so an empty stored string is returned as-is. -/
def loadSelectedContext (st : Storage) : SelectedContext :=
  { teamId :=
      match st.selectedTeamId with
      | none => none
      | some s => if s = "" then none else parseNat s
    projectId :=
      match st.selectedProjectId with
      | none => none
      | some s => if s = "" then none else parseNat s
    deploymentName := st.selectedDeploymentName }

/- Device-token polling (pollForDeviceToken, lines 686-738). -/

/- One token-endpoint reply: an HTTP-ok reply carrying a token payload,
   or a non-ok reply whose JSON body has the given error field (none
   when the body is missing or unparsable, as in the source's catch). -/
inductive TokenReply where
  | success (tok : TokenResponse)
  | httpError (error : Option String)
deriving DecidableEq

/- Outcome of pollForDeviceToken. token / noToken are the two normal
   returns (the token payload, resp. the null return on cancellation or
   deadline expiry); the remaining constructors are the thrown errors.
   fuelExhausted is a model artifact of the explicit iteration bound and
   is unreachable for the bound used by pollForDeviceToken. -/
inductive PollResult where
  | token (tok : TokenResponse)
  | noToken
  | discoveryError
  | authExpiredError
  | authDeniedError
  | authProtocolError (error : Option String)
  | fuelExhausted
deriving DecidableEq

/- A network request performed by pollForDeviceToken: the one-time
   well-known-configuration fetch, or a token-endpoint POST at the given
   model time (ms since the deadline was computed). -/
inductive NetRequest where
  | discovery
  | tokenRequest (time : Nat)
deriving DecidableEq

/- pollInterval (line 692): (auth.interval or 5) * 1000. -/
def pollIntervalMs (auth : DeviceAuthResponse) : Nat :=
  (if auth.interval = 0 then 5 else auth.interval) * 1000

/- The retried error statuses (line 720). -/
def isRetryError (e : Option String) : Bool :=
  e == some "authorization_pending" || e == some "slow_down"

def isRetryReply : TokenReply → Bool
  | TokenReply.success _ => false
  | TokenReply.httpError e => isRetryError e

/- True exactly on the outcomes that the source surfaces by throwing. -/
def isTerminalFailure : PollResult → Bool
  | PollResult.token _ => false
  | PollResult.noToken => false
  | PollResult.discoveryError => true
  | PollResult.authExpiredError => true
  | PollResult.authDeniedError => true
  | PollResult.authProtocolError _ => true
  | PollResult.fuelExhausted => true

/- The while loop of pollForDeviceToken (lines 695-737). now is the
   model clock, i the index of the next token request, fuel an explicit
   iteration bound (each iteration that continues advances now by p ≥ 1,
   so deadline + 1 iterations always suffice). Returns the outcome and
   the list of token-endpoint requests performed, with their times. -/
def pollLoop (p deadline : Nat) (replies : Nat → TokenReply) (stop : Nat → Bool) :
    Nat → Nat → Nat → PollResult × List NetRequest
  | 0, now, _ =>
    if now < deadline then (PollResult.fuelExhausted, []) else (PollResult.noToken, [])
  | fuel + 1, now, i =>
    if now < deadline then
      if stop i then (PollResult.noToken, [])
      else
        match replies i with
        | TokenReply.success tok => (PollResult.token tok, [NetRequest.tokenRequest now])
        | TokenReply.httpError e =>
          if isRetryError e then
            let rest := pollLoop p deadline replies stop fuel (now + p) (i + 1)
            (rest.1, NetRequest.tokenRequest now :: rest.2)
          else if e == some "expired_token" then
            (PollResult.authExpiredError, [NetRequest.tokenRequest now])
          else if e == some "access_denied" then
            (PollResult.authDeniedError, [NetRequest.tokenRequest now])
          else (PollResult.authProtocolError e, [NetRequest.tokenRequest now])
    else (PollResult.noToken, [])

/- pollForDeviceToken (lines 686-738): first discovers the token
   endpoint (a network fetch that happens before the loop and before any
   stop check; discoveryOk = false models a non-ok discovery response,
   which throws), then runs the polling loop against the deadline
   expires_in * 1000. The onPoll UI callback has no modelled effect. -/
def pollForDeviceToken (auth : DeviceAuthResponse) (discoveryOk : Bool)
    (replies : Nat → TokenReply) (stop : Nat → Bool) : PollResult × List NetRequest :=
  if discoveryOk then
    let deadline := auth.expires_in * 1000
    let r := pollLoop (pollIntervalMs auth) deadline replies stop (deadline + 1) 0 0
    (r.1, NetRequest.discovery :: r.2)
  else (PollResult.discoveryError, [NetRequest.discovery])

/- The failure modes of the full authenticate flow (lines 844-887). -/
inductive AuthFailure where
  | authorizationRequestFailed
  | pollDiscoveryFailed
  | pollExpired
  | pollDenied
  | pollProtocol (error : Option String)
  | pollFuelExhausted
  | cancelledOrExpired
  | exchangeFailed
deriving DecidableEq

/- authenticate (lines 844-887). startRes is the outcome of
   startDeviceAuthorization (none when it threw, covering both its
   discovery fetch and the device-authorization POST); exch is the
   outcome of exchangeForDashboardToken for a given token payload (none
   when it threw). The source polls with no stop callback, converts a
   null poll result into a thrown error, and persists the session with
   saveSession only after a successful exchange; every failure is
   rethrown after UI feedback, leaving storage untouched. -/
def authenticate (startRes : Option DeviceAuthResponse) (discoveryOk : Bool)
    (replies : Nat → TokenReply) (exch : TokenResponse → Option ConvexSession)
    (st : Storage) : Except AuthFailure ConvexSession × Storage :=
  match startRes with
  | none => (Except.error AuthFailure.authorizationRequestFailed, st)
  | some deviceAuth =>
    match (pollForDeviceToken deviceAuth discoveryOk replies fun _ => false).1 with
    | PollResult.token tok =>
      match exch tok with
      | none => (Except.error AuthFailure.exchangeFailed, st)
      | some session => (Except.ok session, saveSession session st)
    | PollResult.noToken => (Except.error AuthFailure.cancelledOrExpired, st)
    | PollResult.discoveryError => (Except.error AuthFailure.pollDiscoveryFailed, st)
    | PollResult.authExpiredError => (Except.error AuthFailure.pollExpired, st)
    | PollResult.authDeniedError => (Except.error AuthFailure.pollDenied, st)
    | PollResult.authProtocolError e => (Except.error (AuthFailure.pollProtocol e), st)
    | PollResult.fuelExhausted => (Except.error AuthFailure.pollFuelExhausted, st)

/- Log filtering (view-logs.tsx). -/

/- Modelled from the spec: the LogEntry record is declared in
   hooks/useConvexData (not under src/); the fields here are the ones of
   the spec's data model that the view-logs filter reads, all strings. -/
structure LogEntry where
  id : String
  functionPath : String
  functionType : String
  status : String
  requestId : String
deriving DecidableEq

/- Model of JS String.prototype.toLowerCase, characterwise. -/
def jsToLower (s : String) : String := ⟨s.toList.map Char.toLower⟩

/- Model of JS String.prototype.includes: pattern matching at the head. -/
def listStartsWith : List Char → List Char → Bool
  | [], _ => true
  | _ :: _, [] => false
  | a :: pa, b :: l => a == b && listStartsWith pa l

def listContainsSeq (pat : List Char) : List Char → Bool
  | [] => listStartsWith pat []
  | b :: l => listStartsWith pat (b :: l) || listContainsSeq pat l

def includesJs (s pat : String) : Bool :=
  listContainsSeq pat.toList s.toList

/- filteredLogs (view-logs.tsx lines 123-132): a pure client-side filter
   over the already-fetched buffer; an empty (JS-falsy) search text
   keeps everything, else the lowercased search text must occur in one
   of the four lowercased fields. -/
def filteredLogs (searchText : String) (logs : List LogEntry) : List LogEntry :=
  logs.filter fun log =>
    if searchText = "" then true
    else
      let search := jsToLower searchText
      includesJs (jsToLower log.functionPath) search ||
      includesJs (jsToLower log.requestId) search ||
      includesJs (jsToLower log.status) search ||
      includesJs (jsToLower log.functionType) search

/- Spec-side substring predicate, from the claim wording. -/
def substringOf (pat s : String) : Prop :=
  ∃ u v, s.toList = u ++ pat.toList ++ v

/- Spec-side match predicate, from the claim wording: the lowercased
   search text is a substring of the entry's functionPath, requestId,
   status, or functionType, compared case-insensitively. -/
def searchMatches (searchText : String) (log : LogEntry) : Prop :=
  substringOf (jsToLower searchText) (jsToLower log.functionPath) ∨
  substringOf (jsToLower searchText) (jsToLower log.requestId) ∨
  substringOf (jsToLower searchText) (jsToLower log.status) ∨
  substringOf (jsToLower searchText) (jsToLower log.functionType)

/- Helper lemmas: decimal codec round trip. -/

theorem digitChar_facts :
    ∀ d, d < 10 → (digitChar d).toNat = 48 + d ∧ isDigitChar (digitChar d) = true := by
  decide

theorem natDigitsAux_spec :
    ∀ fuel n, n < fuel →
      natDigitsAux fuel n ≠ [] ∧
      (natDigitsAux fuel n).all isDigitChar = true ∧
      ∀ a, (natDigitsAux fuel n).foldl (fun x c => x * 10 + (c.toNat - 48)) a =
        a * 10 ^ (natDigitsAux fuel n).length + n := by
  intro fuel
  induction fuel with
  | zero => intro n hn; exact absurd hn (Nat.not_lt_zero n)
  | succ f ih =>
    intro n hn
    by_cases h : n < 10
    · obtain ⟨hc, hd⟩ := digitChar_facts n h
      refine ⟨by simp [natDigitsAux, h], by simp [natDigitsAux, h, hd], ?_⟩
      intro a
      simp only [natDigitsAux, if_pos h, List.foldl_cons, List.foldl_nil, List.length_cons,
        List.length_nil, hc]
      omega
    · have h0 : 0 < n := by omega
      have hlt : n / 10 < f := lt_of_lt_of_le (Nat.div_lt_self h0 (by omega)) (by omega)
      obtain ⟨hne, hall, hfold⟩ := ih (n / 10) hlt
      obtain ⟨hc, hd⟩ := digitChar_facts (n % 10) (Nat.mod_lt n (by omega))
      refine ⟨by simp [natDigitsAux, h], by simp [natDigitsAux, h, List.all_append, hall, hd], ?_⟩
      intro a
      simp only [natDigitsAux, if_neg h, List.foldl_append, List.length_append, List.length_cons,
        List.length_nil, List.foldl_cons, List.foldl_nil]
      rw [hfold a, hc]
      have hdm : n / 10 * 10 + n % 10 = n := by omega
      calc (a * 10 ^ (natDigitsAux f (n / 10)).length + n / 10) * 10 + (48 + n % 10 - 48)
          = a * (10 ^ (natDigitsAux f (n / 10)).length * 10) + (n / 10 * 10 + n % 10) := by
            have : 48 + n % 10 - 48 = n % 10 := by omega
            rw [this]; ring
        _ = a * 10 ^ ((natDigitsAux f (n / 10)).length + (0 + 1)) + n := by
            rw [hdm, Nat.zero_add, pow_succ]

theorem parseNat_natToString (n : Nat) : parseNat (natToString n) = some n := by
  obtain ⟨hne, hall, hfold⟩ := natDigitsAux_spec (n + 1) n (Nat.lt_succ_self n)
  have htl : (natToString n).toList = natDigitsAux (n + 1) n := rfl
  rw [parseNat, htl, if_pos ⟨hne, hall⟩, hfold 0]
  simp

theorem natToString_ne_empty (n : Nat) : natToString n ≠ "" := by
  obtain ⟨hne, -, -⟩ := natDigitsAux_spec (n + 1) n (Nat.lt_succ_self n)
  intro h
  apply hne
  have h2 : (natToString n).toList = ("" : String).toList := by rw [h]
  simpa [natToString] using h2

/- Helper lemmas: the polling loop. -/

theorem one_le_pollIntervalMs (auth : DeviceAuthResponse) : 1 ≤ pollIntervalMs auth := by
  rw [pollIntervalMs]
  by_cases h : auth.interval = 0
  · simp [h]
  · simp [h]
    omega

theorem pollLoop_all_retry (p deadline : Nat) (replies : Nat → TokenReply) (stop : Nat → Bool)
    (hret : ∀ j, isRetryReply (replies j) = true) (hstop : ∀ j, stop j = false)
    (hp : 1 ≤ p) :
    ∀ fuel now i, deadline ≤ now + fuel →
      (pollLoop p deadline replies stop fuel now i).1 = PollResult.noToken := by
  intro fuel
  induction fuel with
  | zero =>
    intro now i h
    simp [pollLoop, show ¬ now < deadline by omega]
  | succ f ih =>
    intro now i h
    by_cases hn : now < deadline
    · have hr := hret i
      rcases hrep : replies i with tok | e
      · rw [hrep] at hr; simp [isRetryReply] at hr
      · have he : isRetryError e = true := by rw [hrep] at hr; simpa [isRetryReply] using hr
        simp [pollLoop, hn, hstop i, hrep, he]
        exact ih (now + p) (i + 1) (by omega)
    · simp [pollLoop, hn]

theorem pollLoop_retry_steps (p deadline : Nat) (replies : Nat → TokenReply) (stop : Nat → Bool) :
    ∀ (k fuel now i : Nat),
      (∀ j, j < k → isRetryReply (replies (i + j)) = true) →
      (∀ j, j < k → stop (i + j) = false) →
      (∀ j, j < k → now + j * p < deadline) →
      k ≤ fuel →
      pollLoop p deadline replies stop fuel now i =
        ((pollLoop p deadline replies stop (fuel - k) (now + k * p) (i + k)).1,
          ((List.range k).map fun j => NetRequest.tokenRequest (now + j * p)) ++
            (pollLoop p deadline replies stop (fuel - k) (now + k * p) (i + k)).2) := by
  intro k
  induction k with
  | zero => intro fuel now i _ _ _ _; simp
  | succ k ih =>
    intro fuel now i hret hstop hdl hfuel
    obtain ⟨f, rfl⟩ : ∃ f, fuel = f + 1 := ⟨fuel - 1, by omega⟩
    have hnow : now < deadline := by have h2 := hdl 0 (by omega); simpa using h2
    have hs0 : stop i = false := by have h2 := hstop 0 (by omega); simpa using h2
    have hr0 : isRetryReply (replies i) = true := by have h2 := hret 0 (by omega); simpa using h2
    rcases hrep : replies i with tok | e
    · rw [hrep] at hr0; simp [isRetryReply] at hr0
    · have he : isRetryError e = true := by rw [hrep] at hr0; simpa [isRetryReply] using hr0
      have step : pollLoop p deadline replies stop (f + 1) now i =
          ((pollLoop p deadline replies stop f (now + p) (i + 1)).1,
            NetRequest.tokenRequest now ::
              (pollLoop p deadline replies stop f (now + p) (i + 1)).2) := by
        simp [pollLoop, hnow, hs0, hrep, he]
      have hretA : ∀ j, j < k → isRetryReply (replies (i + 1 + j)) = true := by
        intro j hj
        have h2 := hret (j + 1) (by omega)
        rwa [show i + (j + 1) = i + 1 + j by omega] at h2
      have hstopA : ∀ j, j < k → stop (i + 1 + j) = false := by
        intro j hj
        have h2 := hstop (j + 1) (by omega)
        rwa [show i + (j + 1) = i + 1 + j by omega] at h2
      have hdlA : ∀ j, j < k → now + p + j * p < deadline := by
        intro j hj
        have h2 := hdl (j + 1) (by omega)
        rw [Nat.succ_mul] at h2
        omega
      rw [step, ih f (now + p) (i + 1) hretA hstopA hdlA (by omega)]
      have e1 : f - k = f + 1 - (k + 1) := by omega
      have e2 : now + p + k * p = now + (k + 1) * p := by rw [Nat.succ_mul]; omega
      have e3 : i + 1 + k = i + (k + 1) := by omega
      have e4 : (List.range (k + 1)).map (fun j => NetRequest.tokenRequest (now + j * p)) =
          NetRequest.tokenRequest now ::
            (List.range k).map fun j => NetRequest.tokenRequest (now + p + j * p) := by
        rw [List.range_succ_eq_map, List.map_cons, List.map_map]
        simp only [Nat.zero_mul, Nat.add_zero]
        congr 1
        refine List.map_congr_left ?_
        intro a _
        simp only [Function.comp_apply]
        congr 1
        rw [Nat.succ_mul]
        omega
      rw [e1, e2, e3, e4]
      simp

theorem pollForDeviceToken_after_retries (auth : DeviceAuthResponse)
    (replies : Nat → TokenReply) (stop : Nat → Bool) (k : Nat)
    (hret : ∀ j, j < k → isRetryReply (replies j) = true)
    (hstop : ∀ j, j < k → stop j = false)
    (hdl : k * pollIntervalMs auth < auth.expires_in * 1000) :
    pollForDeviceToken auth true replies stop =
      ((pollLoop (pollIntervalMs auth) (auth.expires_in * 1000) replies stop
          (auth.expires_in * 1000 + 1 - k) (k * pollIntervalMs auth) k).1,
        NetRequest.discovery ::
          (((List.range k).map fun j => NetRequest.tokenRequest (j * pollIntervalMs auth)) ++
            (pollLoop (pollIntervalMs auth) (auth.expires_in * 1000) replies stop
              (auth.expires_in * 1000 + 1 - k) (k * pollIntervalMs auth) k).2)) := by
  have hp := one_le_pollIntervalMs auth
  have hk : k ≤ auth.expires_in * 1000 + 1 := by
    have h2 : k ≤ k * pollIntervalMs auth := Nat.le_mul_of_pos_right k (by omega)
    omega
  have hsteps := pollLoop_retry_steps (pollIntervalMs auth) (auth.expires_in * 1000) replies stop
    k (auth.expires_in * 1000 + 1) 0 0
    (by intro j hj; simpa using hret j hj)
    (by intro j hj; simpa using hstop j hj)
    (by
      intro j hj
      have h1 : j * pollIntervalMs auth ≤ k * pollIntervalMs auth :=
        Nat.mul_le_mul_right _ (by omega)
      omega)
    hk
  have hstart : pollForDeviceToken auth true replies stop =
      ((pollLoop (pollIntervalMs auth) (auth.expires_in * 1000) replies stop
          (auth.expires_in * 1000 + 1) 0 0).1,
        NetRequest.discovery ::
          (pollLoop (pollIntervalMs auth) (auth.expires_in * 1000) replies stop
            (auth.expires_in * 1000 + 1) 0 0).2) := rfl
  rw [hstart, hsteps]
  simp only [Nat.zero_add]

/- Helper lemmas: the substring check agrees with the spec predicate. -/

theorem listStartsWith_iff : ∀ (pat l : List Char),
    listStartsWith pat l = true ↔ ∃ v, l = pat ++ v := by
  intro pat
  induction pat with
  | nil => intro l; simp [listStartsWith]
  | cons a pa ih =>
    intro l
    cases l with
    | nil => simp [listStartsWith]
    | cons b t =>
      simp only [listStartsWith, Bool.and_eq_true, beq_iff_eq, ih]
      constructor
      · rintro ⟨rfl, v, rfl⟩
        exact ⟨v, rfl⟩
      · rintro ⟨v, hv⟩
        rw [List.cons_append] at hv
        injection hv with h1 h2
        exact ⟨h1.symm, v, h2⟩

theorem listContainsSeq_iff : ∀ (pat l : List Char),
    listContainsSeq pat l = true ↔ ∃ u v, l = u ++ pat ++ v := by
  intro pat l
  induction l with
  | nil =>
    simp only [listContainsSeq, listStartsWith_iff]
    constructor
    · rintro ⟨v, hv⟩
      exact ⟨[], v, by simpa using hv⟩
    · rintro ⟨u, v, hv⟩
      have h2 := hv.symm
      simp only [List.append_assoc, List.append_eq_nil] at h2
      exact ⟨v, by simp [h2.1, h2.2.1, h2.2.2]⟩
  | cons b t ih =>
    simp only [listContainsSeq, Bool.or_eq_true, listStartsWith_iff, ih]
    constructor
    · rintro (⟨v, hv⟩ | ⟨u, v, hv⟩)
      · exact ⟨[], v, by simpa using hv⟩
      · exact ⟨b :: u, v, by simp [hv]⟩
    · rintro ⟨u, v, hv⟩
      cases u with
      | nil => exact Or.inl ⟨v, by simpa using hv⟩
      | cons x u =>
        rw [List.append_assoc, List.cons_append] at hv
        injection hv with h1 h2
        exact Or.inr ⟨u, v, by simpa using h2⟩

theorem includesJs_iff (s pat : String) :
    includesJs s pat = true ↔ substringOf pat s := by
  rw [includesJs, substringOf, listContainsSeq_iff]

/- Claim theorems. -/

/-- C5 counterexample: the source's guard is the JS-falsy check
!session.expiresAt, so a session with expiresAt = 0 is never expired, while
the claim's iff would call it expired at any current time above -300000 ms
(expiresAt is set and the time exceeds 0 - 300000). -/
theorem isSessionExpired_margin_cex :
    isSessionExpired 1700000000000 ⟨"a", "Bearer", some 0, none⟩ = false ∧
    ((0 : Int) - 300000 < 1700000000000) :=
  ⟨rfl, by decide⟩

/-- C5 (amended): isSessionExpired returns true iff the session's expiresAt
is set, JS-truthy (nonzero), and the current time exceeds expiresAt minus
300000 ms (the 5-minute margin); in particular it returns true for every
session whose nonzero expiresAt plus the margin lies in the past, and false
both for every session with no expiresAt and for the falsy expiresAt = 0. -/
theorem isSessionExpired_margin (now : Int) (s : ConvexSession) :
    (isSessionExpired now s = true ↔
      ∃ e, s.expiresAt = some e ∧ e ≠ 0 ∧ (e : Int) - 300000 < now) ∧
    (∀ e, s.expiresAt = some e → e ≠ 0 → (e : Int) + 300000 < now →
      isSessionExpired now s = true) ∧
    (s.expiresAt = none → isSessionExpired now s = false) ∧
    (s.expiresAt = some 0 → isSessionExpired now s = false) := by
  obtain ⟨a, tt, ex, rt⟩ := s
  cases ex with
  | none =>
    refine ⟨by simp [isSessionExpired], ?_, fun _ => by simp [isSessionExpired], ?_⟩
    · intro e he
      exact Option.noConfusion he
    · intro h
      exact Option.noConfusion h
  | some e =>
    by_cases he0 : e = 0
    · subst he0
      refine ⟨by simp [isSessionExpired], ?_, ?_, fun _ => by simp [isSessionExpired]⟩
      · intro e2 he2 hne2 h2
        injection he2 with he2
        exact absurd he2.symm hne2
      · intro h
        exact Option.noConfusion h
    · have hch : isSessionExpired now ⟨a, tt, some e, rt⟩ = true ↔ (e : Int) - 300000 < now := by
        simp only [isSessionExpired]
        rw [if_neg he0]
        simp only [decide_eq_true_eq, gt_iff_lt]
        constructor <;> intro h <;> omega
      refine ⟨?_, ?_, ?_, ?_⟩
      · rw [hch]
        constructor
        · intro h
          exact ⟨e, rfl, he0, h⟩
        · rintro ⟨e2, he2, hne2, h2⟩
          injection he2 with he2
          omega
      · intro e2 he2 hne2 h2
        injection he2 with he2
        rw [hch]
        omega
      · intro h
        exact Option.noConfusion h
      · intro h
        injection h with h
        exact absurd h he0

/-- Witness for C5 (amended) at concrete inputs: a session expiring at
400000 ms is already expired at time 200000; sessions with no expiresAt or
with the falsy expiresAt 0 are not. -/
theorem isSessionExpired_margin_w :
    isSessionExpired 200000 ⟨"a", "Bearer", some 400000, none⟩ = true ∧
    isSessionExpired 200000 ⟨"a", "Bearer", none, none⟩ = false ∧
    isSessionExpired 200000 ⟨"a", "Bearer", some 0, none⟩ = false :=
  ⟨(isSessionExpired_margin 200000 ⟨"a", "Bearer", some 400000, none⟩).1.mpr
      ⟨400000, rfl, by decide, by decide⟩,
    (isSessionExpired_margin 200000 ⟨"a", "Bearer", none, none⟩).2.2.1 rfl,
    (isSessionExpired_margin 200000 ⟨"a", "Bearer", some 0, none⟩).2.2.2 rfl⟩

/-- C7: after clearSession, every stored key of the Session and of the
SelectedContext is absent; a subsequent loadSession returns none and a
subsequent loadSelectedContext returns the context with all fields null. -/
theorem clearSession_clears_all (st : Storage) :
    clearSession st = ⟨none, none, none, none, none, none⟩ ∧
    loadSession (clearSession st) = none ∧
    loadSelectedContext (clearSession st) = ⟨none, none, none⟩ :=
  ⟨rfl, rfl, rfl⟩

/-- C6: whenever the full authenticate flow fails (endpoint discovery, the
device-authorization request, token polling or the dashboard-token exchange
raises, or polling yields no token), durable session storage is left exactly
as it was: no partial session is persisted. -/
theorem authenticate_failure_keeps_storage (startRes : Option DeviceAuthResponse)
    (discoveryOk : Bool) (replies : Nat → TokenReply)
    (exch : TokenResponse → Option ConvexSession) (st : Storage) (e : AuthFailure)
    (h : (authenticate startRes discoveryOk replies exch st).1 = Except.error e) :
    (authenticate startRes discoveryOk replies exch st).2 = st := by
  rcases startRes with _ | da
  · rfl
  · rcases hp : (pollForDeviceToken da discoveryOk replies fun _ => false).1 with
      tok | _ | _ | _ | _ | e2 | _
    · rcases hx : exch tok with _ | s
      · simp [authenticate, hp, hx]
      · simp [authenticate, hp, hx] at h
    · simp [authenticate, hp]
    · simp [authenticate, hp]
    · simp [authenticate, hp]
    · simp [authenticate, hp]
    · simp [authenticate, hp]
    · simp [authenticate, hp]

/-- Witness for C6 at a concrete failing input: the device-authorization
request fails and the pre-existing storage is untouched. -/
theorem authenticate_failure_keeps_storage_w :
    (authenticate none true (fun _ => TokenReply.httpError none) (fun _ => none)
        ⟨some "tok", none, none, none, none, none⟩).2 =
      ⟨some "tok", none, none, none, none, none⟩ :=
  authenticate_failure_keeps_storage none true (fun _ => TokenReply.httpError none)
    (fun _ => none) ⟨some "tok", none, none, none, none, none⟩
    AuthFailure.authorizationRequestFailed rfl

/-- C9 counterexample: for a session whose new access token is the empty
string, saveSession still leaves the stored expiry unchanged, but the
subsequent loadSession hits the JS-falsy access-token check and returns
null, not a session combining the new accessToken with the older expiry. -/
theorem saveSession_frame_cex :
    (saveSession ⟨"", "Bearer", none, none⟩
        ⟨some "tok1", some (natToString 99), none, none, none, none⟩).tokenExpiresAt =
      some (natToString 99) ∧
    loadSession (saveSession ⟨"", "Bearer", none, none⟩
        ⟨some "tok1", some (natToString 99), none, none, none, none⟩) = none ∧
    loadSession (saveSession ⟨"", "Bearer", none, none⟩
        ⟨some "tok1", some (natToString 99), none, none, none, none⟩) ≠
      some ⟨"", "Bearer", some 99, none⟩ :=
  ⟨rfl, rfl, by decide⟩

/-- C9 (amended): saveSession writes the expiry (resp. refresh-token) key
only when the session has an expiresAt (resp. refreshToken); for every
session with expiresAt undefined, saveSession leaves a previously stored
expiry unchanged, and - provided the new access token is non-empty
(JS-truthy) - a subsequent loadSession returns a session combining the new
accessToken with the older session's expiresAt; with an empty access token
loadSession's falsy check returns null instead. -/
theorem saveSession_frame (s : ConvexSession) (st : Storage) (e : Nat)
    (hnone : s.expiresAt = none)
    (hstored : st.tokenExpiresAt = some (natToString e))
    (hat : s.accessToken ≠ "") :
    (saveSession s st).tokenExpiresAt = st.tokenExpiresAt ∧
    (s.refreshToken = none → (saveSession s st).refreshToken = st.refreshToken) ∧
    ∃ r, loadSession (saveSession s st) =
      some { accessToken := s.accessToken, tokenType := "Bearer",
             expiresAt := some e, refreshToken := r } := by
  have hacc : (saveSession s st).accessToken = some s.accessToken := by
    rw [saveSession, hnone]
    rcases s.refreshToken with _ | r
    · rfl
    · dsimp only
      split <;> rfl
  have hexp : (saveSession s st).tokenExpiresAt = st.tokenExpiresAt := by
    rw [saveSession, hnone]
    rcases s.refreshToken with _ | r
    · rfl
    · dsimp only
      split <;> rfl
  refine ⟨hexp, ?_, ?_⟩
  · intro hrt
    rw [saveSession, hnone, hrt]
  · refine ⟨(saveSession s st).refreshToken, ?_⟩
    rw [loadSession, hacc]
    simp only [hat, if_false, hexp, hstored, natToString_ne_empty e, parseNat_natToString]

/-- Witness for C9 (amended) at a concrete input: saving a session with no
expiry over a store holding expiry 99 keeps that expiry, and load combines
it with the new, non-empty access token. -/
theorem saveSession_frame_w :
    (saveSession ⟨"tok2", "Bearer", none, none⟩
        ⟨some "tok1", some (natToString 99), some "r1", none, none, none⟩).tokenExpiresAt =
      some (natToString 99) ∧
    ((⟨"tok2", "Bearer", none, none⟩ : ConvexSession).refreshToken = none →
      (saveSession ⟨"tok2", "Bearer", none, none⟩
          ⟨some "tok1", some (natToString 99), some "r1", none, none, none⟩).refreshToken =
        some "r1") ∧
    ∃ r, loadSession (saveSession ⟨"tok2", "Bearer", none, none⟩
        ⟨some "tok1", some (natToString 99), some "r1", none, none, none⟩) =
      some { accessToken := "tok2", tokenType := "Bearer",
             expiresAt := some 99, refreshToken := r } :=
  saveSession_frame ⟨"tok2", "Bearer", none, none⟩
    ⟨some "tok1", some (natToString 99), some "r1", none, none, none⟩ 99 rfl rfl
    (by decide)

/-- C8 counterexample: with a prior storage holding a deployment name and a
new context whose fields are all null, save-then-load returns the older
stored deployment name, not the null of the saved context. -/
theorem selected_context_roundtrip_cex :
    loadSelectedContext (saveSelectedContext ⟨none, none, none⟩
        ⟨none, none, none, none, none, some "old-deploy"⟩) ≠
      (⟨none, none, none⟩ : SelectedContext) := by
  decide

/-- C8 (amended): for every selected context whose three fields are present
and JS-truthy (nonzero ids, non-empty deployment name), saveSelectedContext
followed by loadSelectedContext returns that context, whatever the prior
storage state; a null (or 0, or empty) field is not written, so for such a
field a subsequent load returns the previously stored value instead. -/
theorem selected_context_roundtrip (c : SelectedContext) (st : Storage)
    (t p : Nat) (d : String)
    (ht : c.teamId = some t) (ht0 : t ≠ 0)
    (hp : c.projectId = some p) (hp0 : p ≠ 0)
    (hd : c.deploymentName = some d) (hd0 : d ≠ "") :
    loadSelectedContext (saveSelectedContext c st) = c := by
  obtain ⟨ct, cp, cd⟩ := c
  simp only at ht hp hd
  subst ht hp hd
  have hsave : saveSelectedContext ⟨some t, some p, some d⟩ st =
      { st with selectedTeamId := some (natToString t),
                selectedProjectId := some (natToString p),
                selectedDeploymentName := some d } := by
    simp only [saveSelectedContext]
    rw [if_pos ht0, if_pos hp0, if_pos hd0]
  rw [hsave, loadSelectedContext]
  simp only [natToString_ne_empty, if_false, parseNat_natToString]

/-- Witness for C8 (amended) at a concrete input with a conflicting prior
storage state. -/
theorem selected_context_roundtrip_w :
    loadSelectedContext (saveSelectedContext ⟨some 3, some 7, some "prod"⟩
        ⟨some "x", none, some "r", some "8", none, some "old"⟩) =
      ⟨some 3, some 7, some "prod"⟩ :=
  selected_context_roundtrip ⟨some 3, some 7, some "prod"⟩
    ⟨some "x", none, some "r", some "8", none, some "old"⟩ 3 7 "prod"
    rfl (by decide) rfl (by decide) rfl (by decide)

/-- C10: the client-side log filter keeps exactly the fetched entries for
which the lowercased search text occurs in the entry's functionPath,
requestId, status or functionType (compared case-insensitively), preserves
their order (the result is a sublist of the input), and the empty search
text keeps every entry; it is a pure function of the already-fetched buffer,
so no server refetch is involved. -/
theorem filteredLogs_spec (searchText : String) (logs : List LogEntry) (e : LogEntry) :
    filteredLogs "" logs = logs ∧
    List.Sublist (filteredLogs searchText logs) logs ∧
    (e ∈ filteredLogs searchText logs ↔
      e ∈ logs ∧ (searchText = "" ∨ searchMatches searchText e)) := by
  refine ⟨by simp [filteredLogs], ?_, ?_⟩
  · rw [filteredLogs]
    exact List.filter_sublist logs
  · rw [filteredLogs, List.mem_filter]
    by_cases hs : searchText = ""
    · simp [hs]
    · simp only [hs, if_false, or_false, false_or, Bool.or_eq_true, includesJs_iff,
        searchMatches]
      tauto

/-- Witness for C10 at concrete inputs: the empty search keeps the buffer
and a matching search keeps a matching entry. -/
theorem filteredLogs_spec_w :
    filteredLogs "" [⟨"1", "tasks:get", "query", "success", "req1"⟩] =
      [⟨"1", "tasks:get", "query", "success", "req1"⟩] ∧
    (⟨"1", "tasks:get", "query", "success", "req1"⟩ : LogEntry) ∈
      filteredLogs "GET" [⟨"1", "tasks:get", "query", "success", "req1"⟩] :=
  ⟨(filteredLogs_spec "" [⟨"1", "tasks:get", "query", "success", "req1"⟩]
      ⟨"1", "tasks:get", "query", "success", "req1"⟩).1,
    (filteredLogs_spec "GET" [⟨"1", "tasks:get", "query", "success", "req1"⟩]
      ⟨"1", "tasks:get", "query", "success", "req1"⟩).2.2.mpr
      ⟨by decide, Or.inr (Or.inl ⟨"tasks:".toList, [], by decide⟩)⟩⟩

/-- C1 (amended): if the token endpoint answers authorization_pending to the
first two token requests and a token payload on the third, and the expiry
window leaves room for the third request (two poll intervals fit strictly
below the expires_in deadline), then pollForDeviceToken performs exactly 3
token requests, spaced by the advertised interval (5 seconds when the
response advertises no interval), returns the third request's token payload,
and performs no further token requests after the successful one. -/
theorem poll_pending_twice_then_token (auth : DeviceAuthResponse)
    (replies : Nat → TokenReply) (tok : TokenResponse)
    (h0 : replies 0 = TokenReply.httpError (some "authorization_pending"))
    (h1 : replies 1 = TokenReply.httpError (some "authorization_pending"))
    (h2 : replies 2 = TokenReply.success tok)
    (hdl : 2 * pollIntervalMs auth < auth.expires_in * 1000) :
    pollForDeviceToken auth true replies (fun _ => false) =
      (PollResult.token tok,
        [NetRequest.discovery, NetRequest.tokenRequest 0,
          NetRequest.tokenRequest (pollIntervalMs auth),
          NetRequest.tokenRequest (2 * pollIntervalMs auth)]) := by
  have hret : ∀ j, j < 2 → isRetryReply (replies j) = true := by
    intro j hj
    interval_cases j
    · rw [h0]; rfl
    · rw [h1]; rfl
  rw [pollForDeviceToken_after_retries auth replies (fun _ => false) 2 hret
    (fun _ _ => rfl) hdl]
  obtain ⟨f, hf⟩ : ∃ f, auth.expires_in * 1000 + 1 - 2 = f + 1 :=
    ⟨auth.expires_in * 1000 - 2, by omega⟩
  rw [hf]
  have hstep : pollLoop (pollIntervalMs auth) (auth.expires_in * 1000) replies
      (fun _ => false) (f + 1) (2 * pollIntervalMs auth) 2 =
      (PollResult.token tok, [NetRequest.tokenRequest (2 * pollIntervalMs auth)]) := by
    simp [pollLoop, hdl, h2]
  rw [hstep]
  simp [List.range_succ]

/-- Witness for C1 (amended): interval 0 advertises no interval, so the
three requests are spaced 5000 ms apart. -/
theorem poll_pending_twice_then_token_w :
    pollForDeviceToken ⟨"dc", "uc", "vu", "vuc", 900, 0⟩ true
        (fun n => if n < 2 then TokenReply.httpError (some "authorization_pending")
          else TokenReply.success ⟨"at", "Bearer", none, none⟩) (fun _ => false) =
      (PollResult.token ⟨"at", "Bearer", none, none⟩,
        [NetRequest.discovery, NetRequest.tokenRequest 0, NetRequest.tokenRequest 5000,
          NetRequest.tokenRequest 10000]) :=
  poll_pending_twice_then_token ⟨"dc", "uc", "vu", "vuc", 900, 0⟩ _
    ⟨"at", "Bearer", none, none⟩ rfl rfl rfl (by decide)

/-- C1 counterexample: the claim quantifies over every device-authorization
response, but with expires_in 1 s and interval 5 s the deadline elapses
during the first retry sleep, so only one token request is performed and no
token is returned, although the endpoint was set to answer pending, pending,
then a token. -/
theorem poll_pending_twice_then_token_cex :
    pollForDeviceToken ⟨"dc", "uc", "vu", "vuc", 1, 5⟩ true
        (fun n => if n < 2 then TokenReply.httpError (some "authorization_pending")
          else TokenReply.success ⟨"at", "Bearer", none, none⟩) (fun _ => false) =
      (PollResult.noToken, [NetRequest.discovery, NetRequest.tokenRequest 0]) := by
  decide

/-- C2 (amended): if every token-endpoint reply until the deadline carries
authorization_pending or slow_down, pollForDeviceToken terminates when the
expires_in deadline elapses by returning null (no token), a normal non-error
return; the caller authenticate then fails terminally by converting the null
into its authentication-expired-or-cancelled error, leaving storage
untouched. -/
theorem poll_deadline_returns_null (auth : DeviceAuthResponse)
    (replies : Nat → TokenReply) (stop : Nat → Bool)
    (exch : TokenResponse → Option ConvexSession) (st : Storage)
    (hret : ∀ j, isRetryReply (replies j) = true)
    (hstop : ∀ j, stop j = false) :
    (pollForDeviceToken auth true replies stop).1 = PollResult.noToken ∧
    authenticate (some auth) true replies exch st =
      (Except.error AuthFailure.cancelledOrExpired, st) := by
  have key : ∀ s2 : Nat → Bool, (∀ j, s2 j = false) →
      (pollForDeviceToken auth true replies s2).1 = PollResult.noToken := by
    intro s2 hs2
    exact pollLoop_all_retry (pollIntervalMs auth) (auth.expires_in * 1000) replies s2
      hret hs2 (one_le_pollIntervalMs auth) (auth.expires_in * 1000 + 1) 0 0 (by omega)
  refine ⟨key stop hstop, ?_⟩
  have h2 := key (fun _ => false) (fun _ => rfl)
  simp [authenticate, h2]

/-- Witness for C2 (amended) at a concrete input, with slow_down replies. -/
theorem poll_deadline_returns_null_w :
    (pollForDeviceToken ⟨"dc", "uc", "vu", "vuc", 10, 5⟩ true
        (fun _ => TokenReply.httpError (some "slow_down")) (fun _ => false)).1 =
      PollResult.noToken ∧
    authenticate (some ⟨"dc", "uc", "vu", "vuc", 10, 5⟩) true
        (fun _ => TokenReply.httpError (some "slow_down")) (fun _ => none)
        ⟨none, none, none, none, none, none⟩ =
      (Except.error AuthFailure.cancelledOrExpired, ⟨none, none, none, none, none, none⟩) :=
  poll_deadline_returns_null ⟨"dc", "uc", "vu", "vuc", 10, 5⟩ _ _ _ _
    (fun _ => rfl) (fun _ => rfl)

/-- C2 counterexample: with every reply authorization_pending the run ends
at the deadline with the null return, which is not one of the thrown
terminal failures the claim requires. -/
theorem poll_deadline_returns_null_cex :
    pollForDeviceToken ⟨"dc", "uc", "vu", "vuc", 10, 5⟩ true
        (fun _ => TokenReply.httpError (some "authorization_pending")) (fun _ => false) =
      (PollResult.noToken,
        [NetRequest.discovery, NetRequest.tokenRequest 0, NetRequest.tokenRequest 5000]) ∧
    isTerminalFailure PollResult.noToken = false :=
  ⟨by decide, rfl⟩

/-- C3 (amended): with the endpoint-discovery fetch succeeding, a stop
signal that is already true before the first poll iteration makes
pollForDeviceToken return null without performing any token-endpoint
request (the discovery fetch, which precedes the stop check, has already
happened); in general the stop signal is checked once per poll iteration,
before that iteration's token request, and cancellation at any iteration
returns null rather than throwing. -/
theorem poll_stop_signal_null (auth : DeviceAuthResponse)
    (replies : Nat → TokenReply) (stop : Nat → Bool) (k : Nat) :
    (stop 0 = true →
      pollForDeviceToken auth true replies stop =
        (PollResult.noToken, [NetRequest.discovery])) ∧
    ((∀ j, j < k → isRetryReply (replies j) = true) → (∀ j, j < k → stop j = false) →
      k * pollIntervalMs auth < auth.expires_in * 1000 → stop k = true →
      pollForDeviceToken auth true replies stop =
        (PollResult.noToken,
          NetRequest.discovery ::
            (List.range k).map fun j => NetRequest.tokenRequest (j * pollIntervalMs auth))) := by
  constructor
  · intro hs0
    show ((pollLoop (pollIntervalMs auth) (auth.expires_in * 1000) replies stop
          (auth.expires_in * 1000 + 1) 0 0).1,
        NetRequest.discovery ::
          (pollLoop (pollIntervalMs auth) (auth.expires_in * 1000) replies stop
            (auth.expires_in * 1000 + 1) 0 0).2) =
      (PollResult.noToken, [NetRequest.discovery])
    by_cases hd : 0 < auth.expires_in * 1000
    · simp [pollLoop, hd, hs0]
    · simp [pollLoop, hd]
  · intro hret hstop hdl hsk
    rw [pollForDeviceToken_after_retries auth replies stop k hret hstop hdl]
    obtain ⟨f, hf⟩ : ∃ f, auth.expires_in * 1000 + 1 - k = f + 1 := by
      have hp := one_le_pollIntervalMs auth
      have hk : k ≤ k * pollIntervalMs auth := Nat.le_mul_of_pos_right k (by omega)
      exact ⟨auth.expires_in * 1000 - k, by omega⟩
    rw [hf]
    simp [pollLoop, hdl, hsk]

/-- Witness for C3 (amended): stop already true gives only the discovery
fetch; stop turning true at the second iteration stops after one token
request, returning null. -/
theorem poll_stop_signal_null_w :
    pollForDeviceToken ⟨"dc", "uc", "vu", "vuc", 900, 5⟩ true
        (fun _ => TokenReply.httpError (some "authorization_pending")) (fun _ => true) =
      (PollResult.noToken, [NetRequest.discovery]) ∧
    pollForDeviceToken ⟨"dc", "uc", "vu", "vuc", 900, 5⟩ true
        (fun _ => TokenReply.httpError (some "authorization_pending"))
        (fun i => decide (1 ≤ i)) =
      (PollResult.noToken, [NetRequest.discovery, NetRequest.tokenRequest 0]) :=
  ⟨(poll_stop_signal_null ⟨"dc", "uc", "vu", "vuc", 900, 5⟩ _ _ 0).1 rfl,
    (poll_stop_signal_null ⟨"dc", "uc", "vu", "vuc", 900, 5⟩ _ _ 1).2
      (fun _ _ => rfl)
      (fun j hj => by have hj0 : j = 0 := (by omega); subst hj0; rfl)
      (by decide) rfl⟩

/-- C3 counterexample: the stop signal is true before the first iteration
and polling returns null as claimed, but one network call has still been
performed: the endpoint-discovery fetch that precedes the stop check. -/
theorem poll_stop_signal_null_cex :
    pollForDeviceToken ⟨"dc", "uc", "vu", "vuc", 900, 5⟩ true
        (fun _ => TokenReply.httpError (some "authorization_pending")) (fun _ => true) =
      (PollResult.noToken, [NetRequest.discovery]) ∧
    (pollForDeviceToken ⟨"dc", "uc", "vu", "vuc", 900, 5⟩ true
        (fun _ => TokenReply.httpError (some "authorization_pending"))
        (fun _ => true)).2.length ≠ 0 :=
  ⟨by decide, by decide⟩

/-- C4: a token-endpoint reply carrying error expired_token makes
pollForDeviceToken fail with the authentication-expired error and perform no
further token requests; a reply carrying access_denied likewise fails with
the authentication-denied error with no further requests (stated after k
pending replies keep the loop alive until the fatal reply is received). -/
theorem poll_expired_denied_terminal (auth : DeviceAuthResponse)
    (replies1 replies2 : Nat → TokenReply) (stop : Nat → Bool) (k : Nat)
    (hstop : ∀ j, j ≤ k → stop j = false)
    (hdl : k * pollIntervalMs auth < auth.expires_in * 1000)
    (hret1 : ∀ j, j < k → isRetryReply (replies1 j) = true)
    (hk1 : replies1 k = TokenReply.httpError (some "expired_token"))
    (hret2 : ∀ j, j < k → isRetryReply (replies2 j) = true)
    (hk2 : replies2 k = TokenReply.httpError (some "access_denied")) :
    pollForDeviceToken auth true replies1 stop =
      (PollResult.authExpiredError,
        NetRequest.discovery ::
          (List.range (k + 1)).map fun j => NetRequest.tokenRequest (j * pollIntervalMs auth)) ∧
    pollForDeviceToken auth true replies2 stop =
      (PollResult.authDeniedError,
        NetRequest.discovery ::
          (List.range (k + 1)).map fun j => NetRequest.tokenRequest (j * pollIntervalMs auth)) := by
  obtain ⟨f, hf⟩ : ∃ f, auth.expires_in * 1000 + 1 - k = f + 1 := by
    have hp := one_le_pollIntervalMs auth
    have hk : k ≤ k * pollIntervalMs auth := Nat.le_mul_of_pos_right k (by omega)
    exact ⟨auth.expires_in * 1000 - k, by omega⟩
  constructor
  · rw [pollForDeviceToken_after_retries auth replies1 stop k hret1
      (fun j hj => hstop j (by omega)) hdl, hf]
    have hstep : pollLoop (pollIntervalMs auth) (auth.expires_in * 1000) replies1 stop
        (f + 1) (k * pollIntervalMs auth) k =
        (PollResult.authExpiredError,
          [NetRequest.tokenRequest (k * pollIntervalMs auth)]) := by
      simp [pollLoop, hdl, hstop k (le_refl k), hk1, isRetryError]
    rw [hstep]
    simp [List.range_succ]
  · rw [pollForDeviceToken_after_retries auth replies2 stop k hret2
      (fun j hj => hstop j (by omega)) hdl, hf]
    have hstep : pollLoop (pollIntervalMs auth) (auth.expires_in * 1000) replies2 stop
        (f + 1) (k * pollIntervalMs auth) k =
        (PollResult.authDeniedError,
          [NetRequest.tokenRequest (k * pollIntervalMs auth)]) := by
      simp [pollLoop, hdl, hstop k (le_refl k), hk2, isRetryError]
    rw [hstep]
    simp [List.range_succ]

/-- Witness for C4 at concrete inputs: one pending reply, then the fatal
reply on the second request. -/
theorem poll_expired_denied_terminal_w :
    pollForDeviceToken ⟨"dc", "uc", "vu", "vuc", 900, 5⟩ true
        (fun n => if n = 0 then TokenReply.httpError (some "authorization_pending")
          else TokenReply.httpError (some "expired_token")) (fun _ => false) =
      (PollResult.authExpiredError,
        [NetRequest.discovery, NetRequest.tokenRequest 0, NetRequest.tokenRequest 5000]) ∧
    pollForDeviceToken ⟨"dc", "uc", "vu", "vuc", 900, 5⟩ true
        (fun n => if n = 0 then TokenReply.httpError (some "authorization_pending")
          else TokenReply.httpError (some "access_denied")) (fun _ => false) =
      (PollResult.authDeniedError,
        [NetRequest.discovery, NetRequest.tokenRequest 0, NetRequest.tokenRequest 5000]) :=
  poll_expired_denied_terminal ⟨"dc", "uc", "vu", "vuc", 900, 5⟩ _ _ _ 1
    (fun _ _ => rfl) (by decide)
    (fun j hj => by have hj0 : j = 0 := (by omega); subst hj0; rfl) rfl
    (fun j hj => by have hj0 : j = 0 := (by omega); subst hj0; rfl) rfl
